import Mathlib

/-!
Verification development for the sequential-thinking engine
(`engines.py`, `session_manager.py`, `models.py`, `plugins.py`).

The engine is embedded shallowly: Python dictionaries become association
lists (insertion-ordered, like Python dicts), `uuid4` identifier generation
becomes a fresh counter threaded through the state, `datetime.now()`
timestamps become an explicit `now : Nat` argument, and floats (which in
this codebase only ever hold small decimal literals) become rationals.
Each engine operation returns the pair of its Python result (a value or
the exception it raises) and the engine state after the call, so that
partially-applied mutations preceding an exception stay observable,
exactly as they do on the mutable Python objects.
-/

namespace SeqThink

/-- Association-list lookup, modelling Python `dict.get` / `in`. -/
def alookup {κ α : Type} [DecidableEq κ] (k : κ) : List (κ × α) → Option α
  | [] => none
  | (k', v) :: rest => if k' = k then some v else alookup k rest

/-- Association-list write, modelling Python `d[k] = v`: replaces in place
when the key exists, appends otherwise (Python dicts keep insertion order). -/
def ainsert {κ α : Type} [DecidableEq κ] (k : κ) (v : α) : List (κ × α) → List (κ × α)
  | [] => [(k, v)]
  | (k', v') :: rest => if k' = k then (k, v) :: rest else (k', v') :: ainsert k v rest

/-- The decimal `n/10`, the form of every confidence literal in the source.
Decimal literals and their sums are modelled as exact rationals; every
comparison the engine performs on them decides the same way as on floats. -/
def tenth (n : Nat) : ℚ := Rat.divInt n 10

/-- Python `str.lower` over the string's characters. -/
def lowerStr (s : String) : String := String.mk (s.toList.map Char.toLower)

/-- Python `not s.strip()`: the string has no non-whitespace character. -/
def strip_empty (s : String) : Bool := s.toList.all fun c => c.isWhitespace

/-- Contiguous-sublist test on character lists. -/
def containsSubList (needle : List Char) : List Char → Bool
  | [] => needle.isEmpty
  | a :: rest => needle.isPrefixOf (a :: rest) || containsSubList needle rest

/-- Python `needle in haystack` for strings (substring containment). -/
def containsSub (hay needle : String) : Bool :=
  containsSubList needle.toList hay.toList

/-- Python `any(word in hay for word in needles)`. -/
def containsAny (hay : String) (needles : List String) : Bool :=
  needles.any fun n => containsSub hay n

/-- `models.PatternResult`. Its `__post_init__` requires confidence in [0,1];
the detectors below reproduce where that validation fires. -/
structure PatternResult where
  pattern : String
  confidence : ℚ
  fallback_used : Bool
  strategy : String
deriving DecidableEq

/-- `models.Thought`. The fields `is_checkpoint`, `tags`,
`packages_explored`, `architecture_decisions` and `coding_context` are
carried verbatim by the source and never read by any embedded operation,
so they are omitted from the embedding. -/
structure Thought where
  id : Nat
  content : String
  number : Nat
  total_estimated : Nat
  timestamp : Nat
  dependencies : List Nat
  contradictions : List Nat
  confidence : ℚ
  branch_id : Option Nat
  revision_of : Option Nat
  pattern_results : List PatternResult
deriving DecidableEq

/-- `models.Branch`. -/
structure Branch where
  id : Nat
  name : String
  created_from : Nat
  purpose : String
  thoughts : List Nat
  merged : Bool
  merge_target : Option Nat
deriving DecidableEq

/-- `models.SessionConfig` with its source defaults. -/
structure SessionConfig where
  max_thoughts : Nat := 1000
  max_branches : Nat := 50
  memory_limit_mb : Nat := 100
  auto_cleanup : Bool := true
  pattern_confidence_threshold : ℚ := tenth 6
deriving DecidableEq

/-- `models.ThinkingSession`. The coding-workflow fields (`coding_session`,
`package_registry`, `architecture_decisions`, `codebase_context`) are
stored but never read by the embedded operations and are omitted. -/
structure ThinkingSession where
  id : Nat
  problem_statement : String
  success_criteria : String
  constraints : List String
  main_thread : List Nat
  branches : List (Nat × Branch)
  patterns : List String
  started : Nat
  last_updated : Nat
  config : SessionConfig
  memory_usage : Nat
deriving DecidableEq

/-- The exceptions the embedded code can raise, one constructor per
distinct `raise` site or built-in Python exception. -/
inductive Err where
  | noActiveSession
  | sessionNotFound
  | memoryLimitExceeded
  | branchNotFound
  | maxBranchesExceeded
  | originalThoughtNotFound
  | invalidContent
  | invalidConfidence
  | attributeErrorNoneSession
  | keyError
  | indexNotFound
deriving DecidableEq

/-- The mutable state of `SequentialThinkingEngine` together with its
`SessionManager`: the global thought table, the session store, the current
session, the engine-global pattern tally, and the fresh-identifier counter
standing in for `uuid4`. -/
structure EngineState where
  thoughts : List (Nat × Thought)
  sessions : List (Nat × ThinkingSession)
  current_session : Option Nat
  patterns : List (String × Nat)
  next_id : Nat
deriving DecidableEq

/-- `plugins.KeywordPatternDetector.patterns`. -/
def keyword_patterns : List (String × List String) :=
  [("first principles", ["first principles", "breaking down", "fundamental"]),
   ("assumption", ["assumption", "assume", "given that"]),
   ("contradiction", ["contradiction", "however", "but", "alternatively"]),
   ("conclusion", ["therefore", "thus", "it follows", "consequently"])]

/-- `plugins.KeywordPatternDetector.detect_patterns`: any matching trigger
substring (case-insensitively) yields confidence 0.8, strategy "keyword". -/
def keyword_detect (content : String) : List PatternResult :=
  let content_lower := lowerStr content
  keyword_patterns.filterMap fun p =>
    if containsAny content_lower p.2 then
      some { pattern := p.1, confidence := tenth 8, fallback_used := false, strategy := "keyword" }
    else none

/-- `plugins.FallbackPatternDetector.detect_patterns`. -/
def fallback_detect (content : String) : List PatternResult :=
  if 50 < content.length then
    [{ pattern := "detailed_analysis", confidence := tenth 5, fallback_used := true,
       strategy := "fallback" }]
  else []

/-- `plugins.CodingPatternDetector.coding_patterns`. -/
def coding_patterns : List (String × List String) :=
  [("package_needed", ["import", "install", "dependency", "library", "framework"]),
   ("api_exploration", ["api", "method", "function", "endpoint", "interface"]),
   ("code_reinvention", ["implement", "write", "create", "build", "develop"]),
   ("integration_planning", ["integrate", "connect", "combine", "merge", "link"]),
   ("architecture_decision", ["choose", "select", "decide", "architecture", "design"])]

/-- Matched-keyword counts of `CodingPatternDetector.detect_patterns`
(for a matching pattern, confidence is 0.7 plus 0.1 per matched keyword). -/
def coding_detect_raw (content : String) : List (String × Nat) :=
  let content_lower := lowerStr content
  coding_patterns.filterMap fun p =>
    let k := (p.2.filter fun kw => containsSub content_lower kw).length
    if 0 < k then some (p.1, k) else none

/-- `plugins.CodingPatternDetector.detect_patterns`. A pattern with four or
more matched keywords gets confidence above 1, so `PatternResult.__post_init__`
raises; the exception escapes the detector, and `PluginManager` then drops
the whole detector's output for this content. -/
def coding_detect (content : String) : List PatternResult :=
  let raw := coding_detect_raw content
  if raw.all fun p => tenth (7 + p.2) ≤ 1 then
    raw.map fun p =>
      { pattern := p.1, confidence := tenth (7 + p.2), fallback_used := false,
        strategy := "coding_keyword" }
  else []

/-- `plugins.PluginManager.get_pattern_results` over the three detectors the
engine registers in order: keyword, fallback, coding. -/
def get_pattern_results (content : String) : List PatternResult :=
  keyword_detect content ++ fallback_detect content ++ coding_detect content

/-- The fixed negative-indicator vocabulary of
`SequentialThinkingEngine._detect_contradictions_async`. -/
def negative_indicators : List String :=
  ["not", "false", "incorrect", "wrong", "impossible"]

/-- The fixed positive-indicator vocabulary of
`SequentialThinkingEngine._detect_contradictions_async`. -/
def positive_indicators : List String :=
  ["true", "correct", "right", "possible", "valid"]

/-- `SequentialThinkingEngine._detect_contradictions_async`. -/
def detect_contradictions (thoughts : List (Nat × Thought)) (content : String)
    (dependencies : List Nat) : List Nat :=
  let content_lower := lowerStr content
  dependencies.filterMap fun dep_id =>
    match alookup dep_id thoughts with
    | none => none
    | some dep =>
      if containsAny content_lower negative_indicators &&
         containsAny (lowerStr dep.content) positive_indicators then
        some dep_id
      else none

/-- `SequentialThinkingEngine._update_patterns_async`: fold results with
confidence at least 0.6 into the engine-global tally. -/
def update_patterns (tally : List (String × Nat)) (results : List PatternResult) :
    List (String × Nat) :=
  results.foldl
    (fun acc r =>
      if tenth 6 ≤ r.confidence then
        ainsert r.pattern ((alookup r.pattern acc).getD 0 + 1) acc
      else acc)
    tally

/-- `SessionManager.check_memory_limits`: a missing session id yields
`false`; otherwise counts the main thread plus every branch's thought list
and fails only when the count strictly exceeds `max_thoughts`. -/
def check_memory_limits (sessions : List (Nat × ThinkingSession)) (session_id : Nat) : Bool :=
  match alookup session_id sessions with
  | none => false
  | some session =>
    let thought_count :=
      session.main_thread.length + (session.branches.map fun b => b.2.thoughts.length).sum
    decide (thought_count ≤ session.config.max_thoughts)

/-- `SessionManager.create_session`, including the `ThinkingSession`
validation of non-empty problem statement and success criteria. -/
def create_session (s : EngineState) (problem criteria : String)
    (constraints : List String) (now : Nat) : Except Err Nat × EngineState :=
  if strip_empty problem then (.error .invalidContent, s)
  else if strip_empty criteria then (.error .invalidContent, s)
  else
    let session_id := s.next_id
    let session : ThinkingSession :=
      { id := session_id, problem_statement := problem, success_criteria := criteria,
        constraints := constraints, main_thread := [], branches := [], patterns := [],
        started := now, last_updated := now, config := {}, memory_usage := 0 }
    (.ok session_id,
      { s with sessions := ainsert session_id session s.sessions, next_id := s.next_id + 1 })

/-- `SequentialThinkingEngine.start_session`: create the session and make it
current. -/
def start_session (s : EngineState) (problem criteria : String)
    (constraints : List String) (now : Nat) : Except Err Nat × EngineState :=
  match create_session s problem criteria constraints now with
  | (.ok session_id, s') => (.ok session_id, { s' with current_session := some session_id })
  | (.error e, s') => (.error e, s')

/-- Tail of `SequentialThinkingEngine.add_thought` after its checks have
passed: `target` is the validated branch entry when `branch_id` was given.
Covers sequence-number computation, contradiction and pattern analysis, the
`Thought` validation, the insertions, the `last_updated` write, and the
pattern-tally fold. -/
def add_thought_insert (s : EngineState) (session_id : Nat) (session : ThinkingSession)
    (content : String) (dependencies : List Nat) (confidence : ℚ)
    (target : Option (Nat × Branch)) (now : Nat) : Except Err Nat × EngineState :=
  let thought_number := match target with
    | none => session.main_thread.length + 1
    | some t => t.2.thoughts.length + 1
  let contradictions := detect_contradictions s.thoughts content dependencies
  let pattern_results := get_pattern_results content
  if strip_empty content then (.error .invalidContent, s)
  else if ¬((0 : ℚ) ≤ confidence ∧ confidence ≤ 1) then (.error .invalidConfidence, s)
  else
    let thought_id := s.next_id
    let thought : Thought :=
      { id := thought_id, content := content, number := thought_number,
        total_estimated := max 5 (thought_number + 2), timestamp := now,
        dependencies := dependencies, contradictions := contradictions,
        confidence := confidence, branch_id := target.map Prod.fst,
        revision_of := none, pattern_results := pattern_results }
    let session' := match target with
      | none => { session with main_thread := session.main_thread ++ [thought_id] }
      | some t =>
        let branch' : Branch := { t.2 with thoughts := t.2.thoughts ++ [thought_id] }
        { session with branches := ainsert t.1 branch' session.branches }
    let session'' := { session' with last_updated := now }
    (.ok thought_id,
      { s with thoughts := ainsert thought_id thought s.thoughts,
               sessions := ainsert session_id session'' s.sessions,
               patterns := update_patterns s.patterns pattern_results,
               next_id := s.next_id + 1 })

/-- `SequentialThinkingEngine.add_thought`. Check order follows the source:
active session, session lookup, memory limit, then branch existence. -/
def add_thought (s : EngineState) (content : String) (dependencies : List Nat)
    (confidence : ℚ) (branch_id : Option Nat) (now : Nat) : Except Err Nat × EngineState :=
  match s.current_session with
  | none => (.error .noActiveSession, s)
  | some session_id =>
    match alookup session_id s.sessions with
    | none => (.error .sessionNotFound, s)
    | some session =>
      if check_memory_limits s.sessions session_id then
        match branch_id with
        | some b =>
          match alookup b session.branches with
          | none => (.error .branchNotFound, s)
          | some branch =>
            add_thought_insert s session_id session content dependencies confidence
              (some (b, branch)) now
        | none =>
          add_thought_insert s session_id session content dependencies confidence none now
      else (.error .memoryLimitExceeded, s)

/-- Python `list.index(x)` followed by `l[idx] = y`: replace the first
occurrence of `x` by `y`, or `none` when `x` is absent (`ValueError`). -/
def replace_first (x y : Nat) : List Nat → Option (List Nat)
  | [] => none
  | a :: rest => if a = x then some (y :: rest) else (replace_first x y rest).map (a :: ·)

/-- `SequentialThinkingEngine.revise_thought`. The revised thought is stored
in the global table before the thread-replacement phase, exactly as in the
source, so the failures of that later phase (missing current session,
missing branch, id absent from the thread) leave the new table entry behind. -/
def revise_thought (s : EngineState) (original_id : Nat) (new_content : String)
    (confidence : ℚ) (now : Nat) : Except Err Nat × EngineState :=
  match alookup original_id s.thoughts with
  | none => (.error .originalThoughtNotFound, s)
  | some original =>
    let contradictions := detect_contradictions s.thoughts new_content original.dependencies
    let pattern_results := get_pattern_results new_content
    if strip_empty new_content then (.error .invalidContent, s)
    else if ¬((0 : ℚ) ≤ confidence ∧ confidence ≤ 1) then (.error .invalidConfidence, s)
    else
      let revised_id := s.next_id
      let revised : Thought :=
        { id := revised_id, content := new_content, number := original.number,
          total_estimated := original.total_estimated, timestamp := now,
          dependencies := original.dependencies, contradictions := contradictions,
          confidence := confidence, branch_id := original.branch_id,
          revision_of := some original_id, pattern_results := pattern_results }
      let s1 := { s with thoughts := ainsert revised_id revised s.thoughts,
                         next_id := s.next_id + 1 }
      match s.current_session with
      | none => (.error .attributeErrorNoneSession, s1)
      | some session_id =>
        match alookup session_id s1.sessions with
        | none => (.error .attributeErrorNoneSession, s1)
        | some session =>
          match original.branch_id with
          | some b =>
            match alookup b session.branches with
            | none => (.error .keyError, s1)
            | some branch =>
              match replace_first original_id revised_id branch.thoughts with
              | none => (.error .indexNotFound, s1)
              | some thoughts' =>
                let branch' : Branch := { branch with thoughts := thoughts' }
                let session' :=
                  { session with branches := ainsert b branch' session.branches }
                (.ok revised_id,
                  { s1 with sessions := ainsert session_id session' s1.sessions,
                            patterns := update_patterns s1.patterns pattern_results })
          | none =>
            match replace_first original_id revised_id session.main_thread with
            | none => (.error .indexNotFound, s1)
            | some main' =>
              let session' := { session with main_thread := main' }
              (.ok revised_id,
                { s1 with sessions := ainsert session_id session' s1.sessions,
                          patterns := update_patterns s1.patterns pattern_results })

/-- `SequentialThinkingEngine.create_branch`, including the `Branch`
validation of a non-empty name. -/
def create_branch (s : EngineState) (name : String) (from_thought : Nat)
    (purpose : String) : Except Err Nat × EngineState :=
  match s.current_session with
  | none => (.error .noActiveSession, s)
  | some session_id =>
    match alookup session_id s.sessions with
    | none => (.error .sessionNotFound, s)
    | some session =>
      if session.config.max_branches ≤ session.branches.length then
        (.error .maxBranchesExceeded, s)
      else if strip_empty name then (.error .invalidContent, s)
      else
        let bid := s.next_id
        let branch : Branch :=
          { id := bid, name := name, created_from := from_thought, purpose := purpose,
            thoughts := [], merged := false, merge_target := none }
        let session' : ThinkingSession :=
          { session with branches := ainsert bid branch session.branches }
        (.ok bid,
          { s with sessions := ainsert session_id session' s.sessions,
                   next_id := s.next_id + 1 })

/-- The loop of `SequentialThinkingEngine.merge_branch`: clear each listed
thought's branch reference in the global table and append its id to the main
thread. A `KeyError` on a missing id interrupts the loop mid-way, keeping
the mutations already performed. -/
def merge_loop : List Nat → List (Nat × Thought) → List Nat → List Nat →
    Except Err Unit × List (Nat × Thought) × List Nat × List Nat
  | [], ths, main, acc => (.ok (), ths, main, acc)
  | tid :: rest, ths, main, acc =>
    match alookup tid ths with
    | none => (.error .keyError, ths, main, acc)
    | some t => merge_loop rest (ainsert tid { t with branch_id := none } ths)
        (main ++ [tid]) (acc ++ [tid])

/-- `SequentialThinkingEngine.merge_branch`. A missing current session or an
unknown branch id raises "Branch not found"; there is no guard on
`branch.merged`, so a second merge re-runs the loop. -/
def merge_branch (s : EngineState) (branch_id : Nat) (target_thought : Option Nat) :
    Except Err (List Nat) × EngineState :=
  match s.current_session with
  | none => (.error .noActiveSession, s)
  | some session_id =>
    match alookup session_id s.sessions with
    | none => (.error .branchNotFound, s)
    | some session =>
      match alookup branch_id session.branches with
      | none => (.error .branchNotFound, s)
      | some branch =>
        match merge_loop branch.thoughts s.thoughts session.main_thread [] with
        | (.ok _, ths', main', merged_thoughts) =>
          let branch' := { branch with merged := true, merge_target := target_thought }
          let session' :=
            { session with main_thread := main',
                           branches := ainsert branch_id branch' session.branches }
          (.ok merged_thoughts,
            { s with thoughts := ths', sessions := ainsert session_id session' s.sessions })
        | (.error e, ths', main', _) =>
          let session' := { session with main_thread := main' }
          (.error e,
            { s with thoughts := ths', sessions := ainsert session_id session' s.sessions })

/-- The `patterns_detected` component of
`SequentialThinkingEngine.get_analysis`: an empty map without a current,
stored session, otherwise a copy of the engine-global tally. -/
def get_analysis_patterns (s : EngineState) : List (String × Nat) :=
  match s.current_session with
  | none => []
  | some session_id =>
    match alookup session_id s.sessions with
    | none => []
    | some _ => s.patterns

/-- Assignment to `SequentialThinkingEngine.current_session`, as performed
by the coding workflow (`engines.py` line 195) when it switches sessions. -/
def set_current (s : EngineState) (session_id : Nat) : EngineState :=
  { s with current_session := some session_id }

/-- The public mutating operations, for reasoning about operation sequences. -/
inductive Op where
  | startSession (problem criteria : String) (constraints : List String) (now : Nat)
  | addThought (content : String) (dependencies : List Nat) (confidence : ℚ)
      (branch_id : Option Nat) (now : Nat)
  | reviseThought (original_id : Nat) (new_content : String) (confidence : ℚ) (now : Nat)
  | createBranch (name : String) (from_thought : Nat) (purpose : String)
  | mergeBranch (branch_id : Nat) (target_thought : Option Nat)

/-- Whether an operation is a branch merge. -/
def Op.isMergeOp : Op → Bool
  | .mergeBranch _ _ => true
  | _ => false

/-- State reached after one operation (its result value discarded). -/
def stepOp (s : EngineState) : Op → EngineState
  | .startSession p c cs now => (start_session s p c cs now).2
  | .addThought c d cf b now => (add_thought s c d cf b now).2
  | .reviseThought o nc cf now => (revise_thought s o nc cf now).2
  | .createBranch n f p => (create_branch s n f p).2
  | .mergeBranch b t => (merge_branch s b t).2

/-- State reached after a sequence of operations. -/
def runOps (s : EngineState) : List Op → EngineState
  | [] => s
  | op :: rest => runOps (stepOp s op) rest

/-- The engine as constructed: everything empty, no current session. -/
def initState : EngineState :=
  { thoughts := [], sessions := [], current_session := none, patterns := [], next_id := 0 }

/-- Thread numbering seen from offset `off`: the id at position `i` of the
list resolves in the thought table to a thought numbered `off + i + 1`. -/
def numbersFrom (ths : List (Nat × Thought)) (l : List Nat) (off : Nat) : Prop :=
  ∀ i tid, l[i]? = some tid → ∃ t, alookup tid ths = some t ∧ t.number = off + i + 1

/-- Every stored session's main thread is numbered exactly 1..N in order. -/
def allMainNumbers (s : EngineState) : Prop :=
  ∀ session_id session, alookup session_id s.sessions = some session →
    numbersFrom s.thoughts session.main_thread 0

/-- Every key of the thought table is below the fresh-identifier counter. -/
def thoughtsFresh (s : EngineState) : Prop :=
  ∀ p ∈ s.thoughts, p.1 < s.next_id

/-- Inductive invariant for the main-thread numbering property. -/
def NumInv (s : EngineState) : Prop :=
  thoughtsFresh s ∧ allMainNumbers s

deriving instance DecidableEq for Except

/-- Demo session for the C10 witness. -/
def c10Session : ThinkingSession :=
  { id := 0, problem_statement := "p", success_criteria := "c", constraints := [],
    main_thread := [7], branches := [], patterns := [], started := 0,
    last_updated := 0, config := {}, memory_usage := 0 }

/-- Demo dependency thought for the C5 witness. -/
def c5Thought : Thought :=
  { id := 0, content := "the approach is valid", number := 1, total_estimated := 5,
    timestamp := 0, dependencies := [], contradictions := [], confidence := tenth 9,
    branch_id := none, revision_of := none, pattern_results := [] }

/-- Operation sequence producing a session with one merged branch: the
branch (id 1) held one thought (id 2), and `mergeBranch` has been called on
it once, so the main thread is `[2]` and the branch is marked merged. -/
def c2Trace : List Op :=
  [.startSession "p" "c" [] 0, .createBranch "alt" 0 "purpose",
   .addThought "a" [] (tenth 8) (some 1) 1, .mergeBranch 1 none]

/-- State after `c2Trace`. -/
def c2State : EngineState := runOps initState c2Trace

/-- Two sessions (ids 0 and 2), one thought (id 1) recorded in session 0,
session 2 current. -/
def c3State : EngineState := runOps initState
  [.startSession "p" "c" [] 0, .addThought "a" [] (tenth 8) none 1,
   .startSession "q" "d" [] 2]

/-- A default-config session whose main thread already exceeds the
1000-thought ceiling, with no branches. -/
def c6Session : ThinkingSession :=
  { id := 0, problem_statement := "p", success_criteria := "c", constraints := [],
    main_thread := List.range 1001, branches := [], patterns := [], started := 0,
    last_updated := 0, config := {}, memory_usage := 0 }

/-- Engine state holding `c6Session` as the current session. -/
def c6State : EngineState :=
  { thoughts := [], sessions := [(0, c6Session)], current_session := some 0,
    patterns := [], next_id := 2000 }

/-- Two empty sessions A (id 0) and B (id 1), session A current. -/
def c8State : EngineState :=
  set_current (runOps initState [.startSession "p" "c" [] 0, .startSession "q" "d" [] 1]) 0

/-- One session started at time 5, no further mutations. -/
def c9State : EngineState := runOps initState [.startSession "p" "c" [] 5]

/-- A one-session demo state: empty session 0 is current, next id 1. -/
def demoSession : ThinkingSession :=
  { id := 0, problem_statement := "p", success_criteria := "c", constraints := [],
    main_thread := [], branches := [], patterns := [], started := 0,
    last_updated := 0, config := {}, memory_usage := 0 }

/-- Engine state holding `demoSession` as current. -/
def demoState : EngineState :=
  { thoughts := [], sessions := [(0, demoSession)], current_session := some 0,
    patterns := [], next_id := 1 }

/-- C4's conclusion: what the first merge of branch `b` does. The branch's
own thought-id list is unchanged (`branch'.thoughts = branch.thoughts`, so
in particular its length), the ids are appended at the end of the main
thread in order, each referenced thought's branch field is cleared, the
branch is marked merged with the optional target recorded, and the merged
id list is returned. -/
def merge_open_branch_spec (s : EngineState) (session_id b : Nat)
    (session : ThinkingSession) (branch : Branch) (target : Option Nat) : Prop :=
  (merge_branch s b target).1 = Except.ok branch.thoughts ∧
  (∃ session',
    alookup session_id (merge_branch s b target).2.sessions = some session' ∧
    session'.main_thread = session.main_thread ++ branch.thoughts ∧
    (∃ branch', alookup b session'.branches = some branch' ∧
      branch'.merged = true ∧ branch'.merge_target = target ∧
      branch'.thoughts = branch.thoughts)) ∧
  (∀ tid ∈ branch.thoughts,
    ∃ t, alookup tid (merge_branch s b target).2.thoughts = some t ∧ t.branch_id = none)

/-- Thought 1 sits in branch 2 of the demo merge state. -/
def c4Thought : Thought :=
  { id := 1, content := "a", number := 1, total_estimated := 5, timestamp := 0,
    dependencies := [], contradictions := [], confidence := tenth 8,
    branch_id := some 2, revision_of := none, pattern_results := [] }

/-- An open branch holding thought 1. -/
def c4Branch : Branch :=
  { id := 2, name := "alt", created_from := 0, purpose := "purpose", thoughts := [1],
    merged := false, merge_target := none }

/-- Session 0 with empty main thread and open branch 2. -/
def c4Session : ThinkingSession :=
  { id := 0, problem_statement := "p", success_criteria := "c", constraints := [],
    main_thread := [], branches := [(2, c4Branch)], patterns := [], started := 0,
    last_updated := 0, config := {}, memory_usage := 0 }

/-- Engine state for the C4 witness. -/
def c4State : EngineState :=
  { thoughts := [(1, c4Thought)], sessions := [(0, c4Session)], current_session := some 0,
    patterns := [], next_id := 3 }

/-- C7's conclusion for a main-thread thought at position `pre.length`:
the call returns the fresh id, which replaces the original at the same
position, every other position, every branch, and every other stored
thought are untouched, the revision copies number, total-estimated,
dependencies and (absent) branch membership and records `revision_of`, and
the original thought object stays in the global table while the main
thread no longer references it. -/
def revise_main_spec (s : EngineState) (session_id original_id : Nat)
    (session : ThinkingSession) (xt : Thought) (pre post : List Nat)
    (new_content : String) (confidence : ℚ) (now : Nat) : Prop :=
  let r := revise_thought s original_id new_content confidence now
  r.1 = Except.ok s.next_id ∧
  (∃ session', alookup session_id r.2.sessions = some session' ∧
    session'.main_thread = pre ++ s.next_id :: post ∧
    session'.branches = session.branches ∧
    original_id ∉ session'.main_thread) ∧
  alookup original_id r.2.thoughts = some xt ∧
  (∃ rt, alookup s.next_id r.2.thoughts = some rt ∧
    rt.number = xt.number ∧ rt.total_estimated = xt.total_estimated ∧
    rt.dependencies = xt.dependencies ∧ rt.branch_id = none ∧
    rt.revision_of = some original_id) ∧
  (∀ j, j ≠ s.next_id → alookup j r.2.thoughts = alookup j s.thoughts)

/-- C7's conclusion for a branch thought at position `pre.length` of branch
`b`: the fresh id replaces the original at the same position of that
branch, the main thread and all other branches are untouched, the revision
copies the original's numbering and branch membership, and no thread of the
session references the original any more. -/
def revise_branch_spec (s : EngineState) (session_id b original_id : Nat)
    (session : ThinkingSession) (xt : Thought) (pre post : List Nat)
    (new_content : String) (confidence : ℚ) (now : Nat) : Prop :=
  let r := revise_thought s original_id new_content confidence now
  r.1 = Except.ok s.next_id ∧
  (∃ session', alookup session_id r.2.sessions = some session' ∧
    session'.main_thread = session.main_thread ∧
    (∃ branch', alookup b session'.branches = some branch' ∧
      branch'.thoughts = pre ++ s.next_id :: post) ∧
    (∀ b', b' ≠ b → alookup b' session'.branches = alookup b' session.branches) ∧
    original_id ∉ session'.main_thread ∧
    (∀ b' br', alookup b' session'.branches = some br' →
      original_id ∉ br'.thoughts)) ∧
  alookup original_id r.2.thoughts = some xt ∧
  (∃ rt, alookup s.next_id r.2.thoughts = some rt ∧
    rt.number = xt.number ∧ rt.total_estimated = xt.total_estimated ∧
    rt.dependencies = xt.dependencies ∧ rt.branch_id = some b ∧
    rt.revision_of = some original_id) ∧
  (∀ j, j ≠ s.next_id → alookup j r.2.thoughts = alookup j s.thoughts)

/-- Main-thread thought 1 of the C7 demo state. -/
def c7Thought : Thought :=
  { id := 1, content := "a", number := 1, total_estimated := 5, timestamp := 0,
    dependencies := [], contradictions := [], confidence := tenth 8,
    branch_id := none, revision_of := none, pattern_results := [] }

/-- Session 0 whose main thread is exactly `[1]`. -/
def c7Session : ThinkingSession :=
  { id := 0, problem_statement := "p", success_criteria := "c", constraints := [],
    main_thread := [1], branches := [], patterns := [], started := 0,
    last_updated := 0, config := {}, memory_usage := 0 }

/-- Engine state for the C7 witness. -/
def c7State : EngineState :=
  { thoughts := [(1, c7Thought)], sessions := [(0, c7Session)], current_session := some 0,
    patterns := [], next_id := 2 }

/-- A short merge-free demo trace: one session, one thought, one revision. -/
def c1DemoTrace : List Op :=
  [.startSession "p" "c" [] 0, .addThought "a" [] (tenth 8) none 1,
   .addThought "a" [] (tenth 8) none 2, .reviseThought 1 "b" (tenth 8) 3]

/-- A trace whose last step merges branch 2 (holding thought 3) into the
main thread `[1]`. -/
def c1BadTrace : List Op :=
  [.startSession "p" "c" [] 0, .addThought "a" [] (tenth 8) none 1,
   .createBranch "alt" 1 "purpose", .addThought "a" [] (tenth 8) (some 2) 2,
   .mergeBranch 2 none]

/-- Key of a written entry resolves to the written value. -/
theorem alookup_ainsert_self {κ α : Type} [DecidableEq κ] (k : κ) (v : α)
    (l : List (κ × α)) : alookup k (ainsert k v l) = some v := by
  induction l with
  | nil => simp [alookup, ainsert]
  | cons p rest ih =>
    by_cases h : p.1 = k
    · simp [alookup, ainsert, h]
    · simp [alookup, ainsert, h, ih]

/-- Other keys are untouched by a write. -/
theorem alookup_ainsert_ne {κ α : Type} [DecidableEq κ] {k k' : κ} (v : α)
    (l : List (κ × α)) (h : k' ≠ k) : alookup k (ainsert k' v l) = alookup k l := by
  induction l with
  | nil => simp [alookup, ainsert, h]
  | cons p rest ih =>
    obtain ⟨a, b⟩ := p
    by_cases hp : a = k'
    · subst hp
      simp [alookup, ainsert, h]
    · simp [alookup, ainsert, hp, ih]

/-- A successful lookup exhibits a list entry. -/
theorem mem_of_alookup_eq_some {κ α : Type} [DecidableEq κ] {k : κ} {v : α}
    {l : List (κ × α)} (h : alookup k l = some v) : (k, v) ∈ l := by
  induction l with
  | nil => simp [alookup] at h
  | cons p rest ih =>
    obtain ⟨a, b⟩ := p
    by_cases hp : a = k
    · subst hp
      rw [alookup, if_pos rfl] at h
      cases h
      exact List.mem_cons_self _ _
    · rw [alookup, if_neg hp] at h
      exact List.mem_cons_of_mem _ (ih h)

/-- Entries after a write come from the write or the original list. -/
theorem mem_ainsert {κ α : Type} [DecidableEq κ] {p : κ × α} {k : κ} {v : α}
    {l : List (κ × α)} (h : p ∈ ainsert k v l) : p = (k, v) ∨ p ∈ l := by
  induction l with
  | nil => simpa [ainsert] using h
  | cons q rest ih =>
    by_cases hq : q.1 = k
    · rw [ainsert, if_pos hq] at h
      rcases List.mem_cons.mp h with h1 | h1
      · exact Or.inl h1
      · exact Or.inr (List.mem_cons_of_mem _ h1)
    · rw [ainsert, if_neg hq] at h
      rcases List.mem_cons.mp h with h1 | h1
      · exact Or.inr (h1 ▸ List.mem_cons_self _ _)
      · rcases ih h1 with h2 | h2
        · exact Or.inl h2
        · exact Or.inr (List.mem_cons_of_mem _ h2)

/-- A key with no entry looks up to `none`. -/
theorem alookup_eq_none_of_forall_lt {α : Type} {n : Nat} {l : List (Nat × α)}
    (h : ∀ p ∈ l, p.1 < n) : alookup n l = none := by
  induction l with
  | nil => rfl
  | cons p rest ih =>
    have hp := h p (List.mem_cons_self _ _)
    rw [alookup, if_neg (by omega)]
    exact ih fun q hq => h q (List.mem_cons_of_mem _ hq)

/-- A fresh-key write preserves every existing lookup. -/
theorem alookup_ainsert_fresh {α : Type} {n : Nat} {l : List (Nat × α)} (v : α)
    (hfresh : ∀ p ∈ l, p.1 < n) {k : Nat} {w : α} (h : alookup k l = some w) :
    alookup k (ainsert n v l) = some w := by
  have hk : k < n := (hfresh _ (mem_of_alookup_eq_some h))
  rw [alookup_ainsert_ne v l (by omega)]
  exact h

/-- C10: `check_memory_limits` is `true` exactly when the session id is
stored and its total thought count (main thread plus all branch lists) does
not exceed the configured maximum; in particular an unknown session id
yields `false` rather than an error. -/
theorem c10_check_memory_limits (sessions : List (Nat × ThinkingSession)) (session_id : Nat) :
    check_memory_limits sessions session_id = true ↔
      ∃ session, alookup session_id sessions = some session ∧
        session.main_thread.length +
          (session.branches.map fun b => b.2.thoughts.length).sum ≤
          session.config.max_thoughts := by
  unfold check_memory_limits
  cases h : alookup session_id sessions with
  | none => simp
  | some session => simp

/-- Witness for C10 at a concrete one-session store. -/
theorem c10_check_memory_limits_witness :
    check_memory_limits [(0, c10Session)] 0 = true ↔
      ∃ session, alookup 0 [(0, c10Session)] = some session ∧
        session.main_thread.length +
          (session.branches.map fun b => b.2.thoughts.length).sum ≤
          session.config.max_thoughts :=
  c10_check_memory_limits [(0, c10Session)] 0

/-- C5: the contradiction detector reports a dependency id exactly when the
id occurs in the dependency list, resolves in the thought table, the new
content contains a negative indicator and the dependency's content contains
a positive indicator (both case-insensitively, by substring). -/
theorem c5_contradiction_characterization (ths : List (Nat × Thought)) (content : String)
    (deps : List Nat) (d : Nat) :
    d ∈ detect_contradictions ths content deps ↔
      d ∈ deps ∧ ∃ t, alookup d ths = some t ∧
        containsAny (lowerStr content) negative_indicators = true ∧
        containsAny (lowerStr t.content) positive_indicators = true := by
  simp only [detect_contradictions, List.mem_filterMap]
  constructor
  · rintro ⟨a, ha, hf⟩
    cases h : alookup a ths with
    | none => rw [h] at hf; simp at hf
    | some t =>
      rw [h] at hf
      dsimp only at hf
      by_cases hc : (containsAny (lowerStr content) negative_indicators &&
          containsAny (lowerStr t.content) positive_indicators) = true
      · rw [if_pos hc] at hf
        cases hf
        rcases Bool.and_eq_true_iff.mp hc with ⟨h1, h2⟩
        exact ⟨ha, t, h, h1, h2⟩
      · rw [if_neg hc] at hf
        simp at hf
  · rintro ⟨hd, t, ht, h1, h2⟩
    refine ⟨d, hd, ?_⟩
    rw [ht]
    dsimp only
    rw [if_pos (Bool.and_eq_true_iff.mpr ⟨h1, h2⟩)]

/-- Witness for C5: a concrete one-entry thought table where the
characterization fires positively. -/
theorem c5_contradiction_witness :
    0 ∈ detect_contradictions [(0, c5Thought)] "this is not correct" [0] ↔
      0 ∈ [0] ∧ ∃ t, alookup 0 [(0, c5Thought)] = some t ∧
        containsAny (lowerStr "this is not correct") negative_indicators = true ∧
        containsAny (lowerStr t.content) positive_indicators = true :=
  c5_contradiction_characterization [(0, c5Thought)] "this is not correct" [0] 0

/-- C2: calling `merge_branch` a second time on the already-merged branch 1
is neither rejected nor idempotent: it succeeds again and re-appends the
branch's thought id, leaving the duplicate main thread `[2, 2]`. -/
theorem c2_double_merge_duplicates :
    (merge_branch c2State 1 none).1 = Except.ok [2] ∧
    (alookup 0 (merge_branch c2State 1 none).2.sessions).map ThinkingSession.main_thread =
      some [2, 2] ∧
    (alookup 0 c2State.sessions).map ThinkingSession.main_thread = some [2] := by decide

/-- C3 counterexample: `revise_thought` on a thought whose thread is not in
the current session raises, yet the revised thought (id 3) is left behind in
the global thought table — the failed call mutates observable state. -/
theorem c3_revise_not_atomic :
    (revise_thought c3State 1 "b" (tenth 8) 3).1 = Except.error Err.indexNotFound ∧
    alookup 3 (revise_thought c3State 1 "b" (tenth 8) 3).2.thoughts ≠ none ∧
    alookup 3 c3State.thoughts = none ∧
    (revise_thought c3State 1 "b" (tenth 8) 3).2 ≠ c3State := by decide

set_option maxRecDepth 8000 in
/-- C6 counterexample: with the session over its thought limit and a
non-existent branch id 99, `add_thought` raises the memory-limit error, not
the branch error — the memory check runs first, contradicting the claimed
check order. -/
theorem c6_memory_check_precedes_branch_check :
    (add_thought c6State "a" [] (tenth 8) (some 99) 0).1 =
      Except.error Err.memoryLimitExceeded ∧
    (add_thought c6State "a" [] (tenth 8) (some 99) 0).1 ≠
      Except.error Err.branchNotFound := by decide

/-- C8 counterexample: session A's `patterns_detected` map is empty, but
after one thought is added while session B is current, reading the analysis
with A current again shows B's pattern — the tally is engine-global, not
session-scoped, so the claimed two-run noninterference fails. -/
theorem c8_pattern_tally_not_session_scoped :
    get_analysis_patterns c8State = [] ∧
    get_analysis_patterns
        (set_current (add_thought (set_current c8State 1) "assumption" [] (tenth 8) none 2).2 0) =
      [("assumption", 1)] := by decide

/-- C9 counterexample: a successful `create_branch` call leaves the
session's `last_updated` timestamp exactly as it was (the source never
touches it there), so not every successful mutating call updates it. -/
theorem c9_create_branch_skips_timestamp :
    (create_branch c9State "alt" 0 "purpose").1 = Except.ok 1 ∧
    (alookup 0 (create_branch c9State "alt" 0 "purpose").2.sessions).map
        ThinkingSession.last_updated = some 5 ∧
    (alookup 0 c9State.sessions).map ThinkingSession.last_updated = some 5 := by decide

/-- Successful main-thread `add_thought`, in equation form. -/
theorem add_thought_main_eq (s : EngineState) (content : String) (deps : List Nat)
    (confidence : ℚ) (now : Nat) (session_id : Nat) (session : ThinkingSession)
    (hcur : s.current_session = some session_id)
    (hsess : alookup session_id s.sessions = some session)
    (hmem : check_memory_limits s.sessions session_id = true)
    (hcontent : strip_empty content = false)
    (hconf : (0 : ℚ) ≤ confidence ∧ confidence ≤ 1) :
    add_thought s content deps confidence none now =
      (.ok s.next_id,
        { s with
            thoughts := ainsert s.next_id
              { id := s.next_id, content := content,
                number := session.main_thread.length + 1,
                total_estimated := max 5 (session.main_thread.length + 1 + 2),
                timestamp := now, dependencies := deps,
                contradictions := detect_contradictions s.thoughts content deps,
                confidence := confidence, branch_id := none, revision_of := none,
                pattern_results := get_pattern_results content } s.thoughts,
            sessions := ainsert session_id
              { session with main_thread := session.main_thread ++ [s.next_id],
                             last_updated := now } s.sessions,
            patterns := update_patterns s.patterns (get_pattern_results content),
            next_id := s.next_id + 1 }) := by
  unfold add_thought add_thought_insert
  simp only [hcur, hsess, hmem, hcontent, if_neg (not_not_intro hconf), if_true,
    Bool.false_eq_true, if_false]
  rfl

/-- Successful branch-thread `add_thought`, in equation form. -/
theorem add_thought_branch_eq (s : EngineState) (content : String) (deps : List Nat)
    (confidence : ℚ) (now : Nat) (session_id b : Nat) (session : ThinkingSession)
    (branch : Branch)
    (hcur : s.current_session = some session_id)
    (hsess : alookup session_id s.sessions = some session)
    (hmem : check_memory_limits s.sessions session_id = true)
    (hbr : alookup b session.branches = some branch)
    (hcontent : strip_empty content = false)
    (hconf : (0 : ℚ) ≤ confidence ∧ confidence ≤ 1) :
    add_thought s content deps confidence (some b) now =
      (.ok s.next_id,
        { s with
            thoughts := ainsert s.next_id
              { id := s.next_id, content := content,
                number := branch.thoughts.length + 1,
                total_estimated := max 5 (branch.thoughts.length + 1 + 2),
                timestamp := now, dependencies := deps,
                contradictions := detect_contradictions s.thoughts content deps,
                confidence := confidence, branch_id := some b, revision_of := none,
                pattern_results := get_pattern_results content } s.thoughts,
            sessions := ainsert session_id
              { session with
                  branches := ainsert b
                    { branch with thoughts := branch.thoughts ++ [s.next_id] }
                    session.branches,
                  last_updated := now } s.sessions,
            patterns := update_patterns s.patterns (get_pattern_results content),
            next_id := s.next_id + 1 }) := by
  unfold add_thought add_thought_insert
  simp only [hcur, hsess, hmem, hbr, hcontent, if_neg (not_not_intro hconf), if_true,
    Bool.false_eq_true, if_false]
  rfl

/-- Successful `revise_thought` of a main-thread thought, in equation form. -/
theorem revise_thought_main_eq (s : EngineState) (original_id : Nat) (new_content : String)
    (confidence : ℚ) (now : Nat) (original : Thought) (session_id : Nat)
    (session : ThinkingSession) (main' : List Nat)
    (horig : alookup original_id s.thoughts = some original)
    (hcontent : strip_empty new_content = false)
    (hconf : (0 : ℚ) ≤ confidence ∧ confidence ≤ 1)
    (hcur : s.current_session = some session_id)
    (hsess : alookup session_id s.sessions = some session)
    (hbid : original.branch_id = none)
    (hrepl : replace_first original_id s.next_id session.main_thread = some main') :
    revise_thought s original_id new_content confidence now =
      (.ok s.next_id,
        { s with
            thoughts := ainsert s.next_id
              { id := s.next_id, content := new_content, number := original.number,
                total_estimated := original.total_estimated, timestamp := now,
                dependencies := original.dependencies,
                contradictions :=
                  detect_contradictions s.thoughts new_content original.dependencies,
                confidence := confidence, branch_id := none,
                revision_of := some original_id,
                pattern_results := get_pattern_results new_content } s.thoughts,
            sessions := ainsert session_id ({ session with main_thread := main' }) s.sessions,
            patterns := update_patterns s.patterns (get_pattern_results new_content),
            next_id := s.next_id + 1 }) := by
  unfold revise_thought
  simp only [horig, hcontent, hcur, hsess, hbid, hrepl, if_neg (not_not_intro hconf),
    Bool.false_eq_true, if_false]

/-- Successful `revise_thought` of a branch thought, in equation form. -/
theorem revise_thought_branch_eq (s : EngineState) (original_id : Nat) (new_content : String)
    (confidence : ℚ) (now : Nat) (original : Thought) (session_id b : Nat)
    (session : ThinkingSession) (branch : Branch) (thoughts' : List Nat)
    (horig : alookup original_id s.thoughts = some original)
    (hcontent : strip_empty new_content = false)
    (hconf : (0 : ℚ) ≤ confidence ∧ confidence ≤ 1)
    (hcur : s.current_session = some session_id)
    (hsess : alookup session_id s.sessions = some session)
    (hbid : original.branch_id = some b)
    (hbr : alookup b session.branches = some branch)
    (hrepl : replace_first original_id s.next_id branch.thoughts = some thoughts') :
    revise_thought s original_id new_content confidence now =
      (.ok s.next_id,
        { s with
            thoughts := ainsert s.next_id
              { id := s.next_id, content := new_content, number := original.number,
                total_estimated := original.total_estimated, timestamp := now,
                dependencies := original.dependencies,
                contradictions :=
                  detect_contradictions s.thoughts new_content original.dependencies,
                confidence := confidence, branch_id := some b,
                revision_of := some original_id,
                pattern_results := get_pattern_results new_content } s.thoughts,
            sessions := ainsert session_id ({ session with branches := ainsert b ({ branch with thoughts := thoughts' }) session.branches }) s.sessions,
            patterns := update_patterns s.patterns (get_pattern_results new_content),
            next_id := s.next_id + 1 }) := by
  unfold revise_thought
  simp only [horig, hcontent, hcur, hsess, hbid, hbr, hrepl,
    if_neg (not_not_intro hconf), Bool.false_eq_true, if_false]

/-- Successful `create_branch`, in equation form. -/
theorem create_branch_eq (s : EngineState) (name : String) (from_thought : Nat)
    (purpose : String) (session_id : Nat) (session : ThinkingSession)
    (hcur : s.current_session = some session_id)
    (hsess : alookup session_id s.sessions = some session)
    (hmax : ¬session.config.max_branches ≤ session.branches.length)
    (hname : strip_empty name = false) :
    create_branch s name from_thought purpose =
      (.ok s.next_id,
        { s with
            sessions := ainsert session_id ({ session with branches := ainsert s.next_id { id := s.next_id, name := name, created_from := from_thought, purpose := purpose, thoughts := [], merged := false, merge_target := none } session.branches }) s.sessions,
            next_id := s.next_id + 1 }) := by
  unfold create_branch
  simp only [hcur, hsess, if_neg hmax, hname, Bool.false_eq_true, if_false]

/-- The merge loop succeeds when every listed id is present; it appends the
ids to the main thread, returns them, clears their branch references in the
table, and touches no other entry. -/
theorem merge_loop_ok (tids : List Nat) (ths : List (Nat × Thought)) (main acc : List Nat)
    (h : ∀ tid ∈ tids, (alookup tid ths).isSome = true) :
    ∃ ths', merge_loop tids ths main acc = (.ok (), ths', main ++ tids, acc ++ tids) ∧
      (∀ k, k ∉ tids → alookup k ths' = alookup k ths) ∧
      (∀ k ∈ tids, ∃ t, alookup k ths = some t ∧
        alookup k ths' = some ({ t with branch_id := none })) := by
  induction tids generalizing ths main acc with
  | nil => exact ⟨ths, by simp [merge_loop], fun k _ => rfl, by simp⟩
  | cons tid rest ih =>
    obtain ⟨t, ht⟩ := Option.isSome_iff_exists.mp (h tid (List.mem_cons_self _ _))
    have hstep : merge_loop (tid :: rest) ths main acc =
        merge_loop rest (ainsert tid ({ t with branch_id := none }) ths)
          (main ++ [tid]) (acc ++ [tid]) := by
      rw [merge_loop, ht]
    have h' : ∀ tid' ∈ rest,
        (alookup tid' (ainsert tid ({ t with branch_id := none }) ths)).isSome = true := by
      intro tid' htid'
      by_cases he : tid' = tid
      · subst he
        rw [alookup_ainsert_self]
        rfl
      · rw [alookup_ainsert_ne _ _ fun hh => he hh.symm]
        exact h tid' (List.mem_cons_of_mem _ htid')
    obtain ⟨ths', heq, hout, hin⟩ :=
      ih (ainsert tid ({ t with branch_id := none }) ths) (main ++ [tid]) (acc ++ [tid]) h'
    refine ⟨ths', ?_, ?_, ?_⟩
    · rw [hstep, heq]
      simp
    · intro k hk
      have hk1 : k ≠ tid := fun he => hk (he ▸ List.mem_cons_self _ _)
      have hk2 : k ∉ rest := fun he => hk (List.mem_cons_of_mem _ he)
      rw [hout k hk2, alookup_ainsert_ne _ _ fun hh => hk1 hh.symm]
    · intro k hk
      by_cases he : k = tid
      · subst he
        by_cases hr : k ∈ rest
        · obtain ⟨t1, ht1, ht1'⟩ := hin k hr
          rw [alookup_ainsert_self] at ht1
          cases ht1
          exact ⟨t, ht, ht1'⟩
        · refine ⟨t, ht, ?_⟩
          rw [hout k hr, alookup_ainsert_self]
      · rcases List.mem_cons.mp hk with h1 | h1
        · exact absurd h1 he
        · obtain ⟨t1, ht1, ht1'⟩ := hin k h1
          rw [alookup_ainsert_ne _ _ fun hh => he hh.symm] at ht1
          exact ⟨t1, ht1, ht1'⟩

/-- Successful `merge_branch` on a stored branch whose thought ids all
resolve, in equation form plus the thought-table effects. -/
theorem merge_branch_eq (s : EngineState) (branch_id : Nat) (target : Option Nat)
    (session_id : Nat) (session : ThinkingSession) (branch : Branch)
    (hcur : s.current_session = some session_id)
    (hsess : alookup session_id s.sessions = some session)
    (hbr : alookup branch_id session.branches = some branch)
    (hwf : ∀ tid ∈ branch.thoughts, (alookup tid s.thoughts).isSome = true) :
    ∃ ths', merge_branch s branch_id target =
      (.ok branch.thoughts,
        { s with
            thoughts := ths',
            sessions := ainsert session_id ({ session with main_thread := session.main_thread ++ branch.thoughts, branches := ainsert branch_id ({ branch with merged := true, merge_target := target }) session.branches }) s.sessions }) ∧
      (∀ k, k ∉ branch.thoughts → alookup k ths' = alookup k s.thoughts) ∧
      (∀ k ∈ branch.thoughts, ∃ t, alookup k s.thoughts = some t ∧
        alookup k ths' = some ({ t with branch_id := none })) := by
  obtain ⟨ths', heq, hout, hin⟩ :=
    merge_loop_ok branch.thoughts s.thoughts session.main_thread [] hwf
  refine ⟨ths', ?_, hout, hin⟩
  unfold merge_branch
  rw [hcur]
  dsimp only
  rw [hsess]
  dsimp only
  rw [hbr]
  dsimp only
  rw [heq]
  rfl

/-- Every failing `add_thought` leaves the engine state unchanged. -/
theorem add_thought_error_state (s : EngineState) (content : String) (deps : List Nat)
    (confidence : ℚ) (branch_id : Option Nat) (now : Nat) :
    ∀ e, (add_thought s content deps confidence branch_id now).1 = Except.error e →
      (add_thought s content deps confidence branch_id now).2 = s := by
  intro e
  unfold add_thought add_thought_insert
  repeat' split
  all_goals first
    | exact fun _ => rfl
    | (intro h; simp at h)

/-- Every failing `create_branch` leaves the engine state unchanged. -/
theorem create_branch_error_state (s : EngineState) (name : String) (from_thought : Nat)
    (purpose : String) :
    ∀ e, (create_branch s name from_thought purpose).1 = Except.error e →
      (create_branch s name from_thought purpose).2 = s := by
  intro e
  unfold create_branch
  repeat' split
  all_goals first
    | exact fun _ => rfl
    | (intro h; simp at h)

/-- The merge loop only ever fails with a `KeyError`. -/
theorem merge_loop_error_keyError (tids : List Nat) (ths : List (Nat × Thought))
    (main acc : List Nat) (e : Err)
    (r : List (Nat × Thought) × List Nat × List Nat) :
    merge_loop tids ths main acc = (.error e, r) → e = Err.keyError := by
  induction tids generalizing ths main acc with
  | nil =>
    intro h
    simp [merge_loop] at h
  | cons tid rest ih =>
    intro h
    rw [merge_loop] at h
    cases ht : alookup tid ths with
    | none =>
      rw [ht] at h
      simp only [Prod.mk.injEq, Except.error.injEq] at h
      exact h.1.symm
    | some t =>
      rw [ht] at h
      exact ih _ _ _ h

/-- A failing `merge_branch` leaves the engine state unchanged, except for
the internal `KeyError` reachable only when a listed thought id is missing
from the global table. -/
theorem merge_branch_error_state (s : EngineState) (b : Nat) (t : Option Nat) :
    ∀ e, (merge_branch s b t).1 = Except.error e → e ≠ Err.keyError →
      (merge_branch s b t).2 = s := by
  intro e
  unfold merge_branch
  split
  · exact fun _ _ => rfl
  · split
    · exact fun _ _ => rfl
    · split
      · exact fun _ _ => rfl
      · split
        · intro h
          simp at h
        · rename_i heq
          intro h hne
          have hk := merge_loop_error_keyError _ _ _ _ _ _ heq
          simp only at h
          cases h
          exact absurd hk hne

/-- `revise_thought` on an unknown original id fails atomically. -/
theorem revise_thought_notfound_eq (s : EngineState) (oid : Nat) (nc : String)
    (conf : ℚ) (now : Nat) (h : alookup oid s.thoughts = none) :
    revise_thought s oid nc conf now = (Except.error Err.originalThoughtNotFound, s) := by
  unfold revise_thought
  simp only [h]

/-- `revise_thought` with blank new content fails atomically. -/
theorem revise_thought_badcontent_eq (s : EngineState) (oid : Nat) (nc : String)
    (conf : ℚ) (now : Nat) (original : Thought)
    (horig : alookup oid s.thoughts = some original)
    (hcontent : strip_empty nc = true) :
    revise_thought s oid nc conf now = (Except.error Err.invalidContent, s) := by
  unfold revise_thought
  simp only [horig, hcontent, if_true]

/-- `revise_thought` with out-of-range confidence fails atomically. -/
theorem revise_thought_badconf_eq (s : EngineState) (oid : Nat) (nc : String)
    (conf : ℚ) (now : Nat) (original : Thought)
    (horig : alookup oid s.thoughts = some original)
    (hcontent : strip_empty nc = false)
    (hconf : ¬((0 : ℚ) ≤ conf ∧ conf ≤ 1)) :
    revise_thought s oid nc conf now = (Except.error Err.invalidConfidence, s) := by
  unfold revise_thought
  simp only [horig, hcontent, Bool.false_eq_true, if_false, if_pos hconf]

/-- C3 amended: `add_thought` and `create_branch` are atomic on every error;
`merge_branch` is atomic on every error other than the internal `KeyError`
on a thought id missing from the global table; `revise_thought` is atomic
on its original-lookup and argument-validation failures — its later
failures (session gone, thread not containing the original) occur after the
revised thought has been stored, as the concrete counterexample run
demonstrates. -/
theorem c3_atomicity_amended :
    (∀ s content deps confidence branch_id now e,
        (add_thought s content deps confidence branch_id now).1 = Except.error e →
        (add_thought s content deps confidence branch_id now).2 = s) ∧
    (∀ s name from_thought purpose e,
        (create_branch s name from_thought purpose).1 = Except.error e →
        (create_branch s name from_thought purpose).2 = s) ∧
    (∀ s b t e, (merge_branch s b t).1 = Except.error e → e ≠ Err.keyError →
        (merge_branch s b t).2 = s) ∧
    (∀ s oid nc conf now, alookup oid s.thoughts = none →
        revise_thought s oid nc conf now = (Except.error Err.originalThoughtNotFound, s)) ∧
    (∀ s oid nc conf now original, alookup oid s.thoughts = some original →
        strip_empty nc = true →
        revise_thought s oid nc conf now = (Except.error Err.invalidContent, s)) ∧
    (∀ s oid nc conf now original, alookup oid s.thoughts = some original →
        strip_empty nc = false → ¬((0 : ℚ) ≤ conf ∧ conf ≤ 1) →
        revise_thought s oid nc conf now = (Except.error Err.invalidConfidence, s)) :=
  ⟨fun s c d cf b n => add_thought_error_state s c d cf b n,
   fun s n f p => create_branch_error_state s n f p,
   fun s b t => merge_branch_error_state s b t,
   fun s o nc cf n => revise_thought_notfound_eq s o nc cf n,
   fun s o nc cf n original => revise_thought_badcontent_eq s o nc cf n original,
   fun s o nc cf n original => revise_thought_badconf_eq s o nc cf n original⟩

/-- Witness for the amended C3 at a concrete failing call: adding a thought
with no active session fails and leaves the empty engine state untouched. -/
theorem c3_atomicity_amended_witness :
    (add_thought initState "a" [] (tenth 8) none 0).2 = initState :=
  c3_atomicity_amended.1 initState "a" [] (tenth 8) none 0 Err.noActiveSession (by decide)

/-- C6 amended: when the memory check passes, a branch id absent from the
session's branch map makes `add_thought` fail with the branch error and
leave the state unchanged; when the memory check fails, the memory error is
raised first, regardless of the branch id. (Branch openness is never
checked: only membership in the branch map.) -/
theorem c6_branch_check_amended :
    (∀ s content deps confidence b now session_id session,
        s.current_session = some session_id →
        alookup session_id s.sessions = some session →
        check_memory_limits s.sessions session_id = true →
        alookup b session.branches = none →
        add_thought s content deps confidence (some b) now =
          (Except.error Err.branchNotFound, s)) ∧
    (∀ s content deps confidence branch_id now session_id session,
        s.current_session = some session_id →
        alookup session_id s.sessions = some session →
        check_memory_limits s.sessions session_id = false →
        add_thought s content deps confidence branch_id now =
          (Except.error Err.memoryLimitExceeded, s)) := by
  constructor
  · intro s content deps confidence b now session_id session hcur hsess hmem hbr
    unfold add_thought
    simp only [hcur, hsess, hmem, hbr, if_true]
  · intro s content deps confidence branch_id now session_id session hcur hsess hmem
    unfold add_thought
    simp only [hcur, hsess, hmem, Bool.false_eq_true, if_false]

/-- Witness for the amended C6: branch id 5 does not exist in the demo
session, and the call fails with the branch error, state unchanged. -/
theorem c6_branch_check_amended_witness :
    add_thought demoState "a" [] (tenth 8) (some 5) 0 =
      (Except.error Err.branchNotFound, demoState) :=
  c6_branch_check_amended.1 demoState "a" [] (tenth 8) 5 0 0 demoSession rfl rfl
    (by decide) rfl

/-- C8 amended: the pattern tally is engine-global. `get_analysis` returns
the engine's tally whenever any session is current, and a successful
`add_thought` folds the qualifying pattern results of its content into that
single tally, independently of which session is current — so thoughts added
in one session are visible in every other session's analysis. -/
theorem c8_pattern_tally_global_amended :
    (∀ s session_id session, s.current_session = some session_id →
        alookup session_id s.sessions = some session →
        get_analysis_patterns s = s.patterns) ∧
    (∀ s content deps confidence branch_id now tid,
        (add_thought s content deps confidence branch_id now).1 = Except.ok tid →
        (add_thought s content deps confidence branch_id now).2.patterns =
          update_patterns s.patterns (get_pattern_results content)) := by
  constructor
  · intro s session_id session hcur hsess
    unfold get_analysis_patterns
    simp only [hcur, hsess]
  · intro s content deps confidence branch_id now tid h
    unfold add_thought add_thought_insert at h ⊢
    repeat' split
    all_goals simp_all

/-- Witness for the amended C8 on the demo state. -/
theorem c8_pattern_tally_global_amended_witness :
    get_analysis_patterns demoState = demoState.patterns :=
  c8_pattern_tally_global_amended.1 demoState 0 demoSession rfl rfl

/-- `last_updated` of every stored session survives a write of a session
whose `last_updated` agrees with the stored one. -/
theorem map_last_alookup_ainsert (k session_id : Nat)
    (sessions : List (Nat × ThinkingSession)) (session session' : ThinkingSession)
    (hsess : alookup session_id sessions = some session)
    (hlast : session'.last_updated = session.last_updated) :
    (alookup k (ainsert session_id session' sessions)).map ThinkingSession.last_updated =
      (alookup k sessions).map ThinkingSession.last_updated := by
  by_cases hk : k = session_id
  · subst hk
    rw [alookup_ainsert_self, hsess]
    simp [hlast]
  · rw [alookup_ainsert_ne _ _ fun h => hk h.symm]

/-- C9 amended: only `add_thought` refreshes the session's `last_updated`
timestamp (setting it to the call time on success); `revise_thought`,
`create_branch` and `merge_branch` leave every session's `last_updated`
unchanged on every path. -/
theorem c9_last_updated_amended :
    (∀ s content deps confidence branch_id now session_id tid,
        s.current_session = some session_id →
        (add_thought s content deps confidence branch_id now).1 = Except.ok tid →
        (alookup session_id
            (add_thought s content deps confidence branch_id now).2.sessions).map
            ThinkingSession.last_updated = some now) ∧
    (∀ s oid nc conf now k,
        (alookup k (revise_thought s oid nc conf now).2.sessions).map
            ThinkingSession.last_updated =
          (alookup k s.sessions).map ThinkingSession.last_updated) ∧
    (∀ s name from_thought purpose k,
        (alookup k (create_branch s name from_thought purpose).2.sessions).map
            ThinkingSession.last_updated =
          (alookup k s.sessions).map ThinkingSession.last_updated) ∧
    (∀ s b t k,
        (alookup k (merge_branch s b t).2.sessions).map ThinkingSession.last_updated =
          (alookup k s.sessions).map ThinkingSession.last_updated) := by
  refine ⟨?_, ?_, ?_, ?_⟩
  · intro s content deps confidence branch_id now session_id tid hcur h
    unfold add_thought add_thought_insert at h ⊢
    repeat' split
    all_goals simp_all [alookup_ainsert_self]
  · intro s oid nc conf now k
    unfold revise_thought
    dsimp only
    repeat' split
    all_goals first
      | rfl
      | (apply map_last_alookup_ainsert <;> first | assumption | rfl)
  · intro s name from_thought purpose k
    unfold create_branch
    repeat' split
    all_goals first
      | rfl
      | (apply map_last_alookup_ainsert <;> first | assumption | rfl)
  · intro s b t k
    unfold merge_branch
    repeat' split
    all_goals first
      | rfl
      | (apply map_last_alookup_ainsert <;> first | assumption | rfl)

/-- Witness for the amended C9: `create_branch` on the demo state keeps the
stored `last_updated`. -/
theorem c9_last_updated_amended_witness :
    (alookup 0 (create_branch demoState "alt" 0 "purpose").2.sessions).map
        ThinkingSession.last_updated =
      (alookup 0 demoState.sessions).map ThinkingSession.last_updated :=
  c9_last_updated_amended.2.2.1 demoState "alt" 0 "purpose" 0

/-- C4: merging a stored (open) branch of the current session behaves as
specified, provided every listed thought id resolves in the global table
(an invariant of every reachable state). -/
theorem c4_merge_open_branch (s : EngineState) (session_id b : Nat)
    (session : ThinkingSession) (branch : Branch) (target : Option Nat)
    (hcur : s.current_session = some session_id)
    (hsess : alookup session_id s.sessions = some session)
    (hbr : alookup b session.branches = some branch)
    (_hopen : branch.merged = false)
    (hwf : ∀ tid ∈ branch.thoughts, (alookup tid s.thoughts).isSome = true) :
    merge_open_branch_spec s session_id b session branch target := by
  obtain ⟨ths', heq, hout, hin⟩ :=
    merge_branch_eq s b target session_id session branch hcur hsess hbr hwf
  refine ⟨?_, ?_, ?_⟩
  · rw [heq]
  · rw [heq]
    exact ⟨_, alookup_ainsert_self _ _ _, rfl, _, alookup_ainsert_self _ _ _, rfl, rfl, rfl⟩
  · intro tid htid
    obtain ⟨t, _, ht'⟩ := hin tid htid
    rw [heq]
    exact ⟨_, ht', rfl⟩

/-- Witness for C4 on the concrete merge state. -/
theorem c4_merge_open_branch_witness :
    merge_open_branch_spec c4State 0 2 c4Session c4Branch none :=
  c4_merge_open_branch c4State 0 2 c4Session c4Branch none rfl rfl rfl rfl (by decide)

/-- Replacing the first occurrence via Python `list.index` assignment, when
the element sits after a prefix that does not contain it. -/
theorem replace_first_of_split (x y : Nat) (pre post : List Nat) (h : x ∉ pre) :
    replace_first x y (pre ++ x :: post) = some (pre ++ y :: post) := by
  induction pre with
  | nil => simp [replace_first]
  | cons a rest ih =>
    have ha : a ≠ x := fun he => h (he ▸ List.mem_cons_self _ _)
    have hrest : x ∉ rest := fun hm => h (List.mem_cons_of_mem _ hm)
    simp [replace_first, ha, ih hrest]

/-- C7: revising a thought that sits (exactly once) at a position of a
thread of the current session replaces it in place by the fresh revision id
and changes nothing else observable. -/
theorem c7_revise_frame :
    (∀ s session_id original_id session xt pre post new_content confidence now,
        (∀ p ∈ s.thoughts, p.1 < s.next_id) →
        s.current_session = some session_id →
        alookup session_id s.sessions = some session →
        alookup original_id s.thoughts = some xt →
        xt.branch_id = none →
        session.main_thread = pre ++ original_id :: post →
        original_id ∉ pre → original_id ∉ post →
        strip_empty new_content = false →
        (0 : ℚ) ≤ confidence → confidence ≤ 1 →
        revise_main_spec s session_id original_id session xt pre post
          new_content confidence now) ∧
    (∀ s session_id b original_id session branch xt pre post new_content confidence now,
        (∀ p ∈ s.thoughts, p.1 < s.next_id) →
        s.current_session = some session_id →
        alookup session_id s.sessions = some session →
        alookup original_id s.thoughts = some xt →
        xt.branch_id = some b →
        alookup b session.branches = some branch →
        branch.thoughts = pre ++ original_id :: post →
        original_id ∉ pre → original_id ∉ post →
        original_id ∉ session.main_thread →
        (∀ b' br', alookup b' session.branches = some br' → b' ≠ b →
          original_id ∉ br'.thoughts) →
        strip_empty new_content = false →
        (0 : ℚ) ≤ confidence → confidence ≤ 1 →
        revise_branch_spec s session_id b original_id session xt pre post
          new_content confidence now) := by
  constructor
  · intro s session_id original_id session xt pre post new_content confidence now
      hfresh hcur hsess hx hxb hsplit hpre hpost hcontent hc0 hc1
    have hxlt : original_id < s.next_id := hfresh _ (mem_of_alookup_eq_some hx)
    have hrepl : replace_first original_id s.next_id session.main_thread =
        some (pre ++ s.next_id :: post) := by
      rw [hsplit]
      exact replace_first_of_split _ _ _ _ hpre
    have heq := revise_thought_main_eq s original_id new_content confidence now xt
      session_id session _ hx hcontent ⟨hc0, hc1⟩ hcur hsess hxb hrepl
    unfold revise_main_spec
    rw [heq]
    refine ⟨rfl, ⟨_, alookup_ainsert_self _ _ _, rfl, rfl, ?_⟩, ?_, ?_, ?_⟩
    · intro hmem
      rcases List.mem_append.mp hmem with hm | hm
      · exact hpre hm
      · rcases List.mem_cons.mp hm with hm | hm
        · omega
        · exact hpost hm
    · exact alookup_ainsert_fresh _ hfresh hx
    · exact ⟨_, alookup_ainsert_self _ _ _, rfl, rfl, rfl, rfl, rfl⟩
    · intro j hj
      exact alookup_ainsert_ne _ _ fun h => hj h.symm
  · intro s session_id b original_id session branch xt pre post new_content confidence now
      hfresh hcur hsess hx hxb hbr hsplit hpre hpost hmain hnb hcontent hc0 hc1
    have hxlt : original_id < s.next_id := hfresh _ (mem_of_alookup_eq_some hx)
    have hrepl : replace_first original_id s.next_id branch.thoughts =
        some (pre ++ s.next_id :: post) := by
      rw [hsplit]
      exact replace_first_of_split _ _ _ _ hpre
    have heq := revise_thought_branch_eq s original_id new_content confidence now xt
      session_id b session branch _ hx hcontent ⟨hc0, hc1⟩ hcur hsess hxb hbr hrepl
    unfold revise_branch_spec
    rw [heq]
    refine ⟨rfl, ⟨_, alookup_ainsert_self _ _ _, rfl,
        ⟨_, alookup_ainsert_self _ _ _, rfl⟩, ?_, hmain, ?_⟩, ?_, ?_, ?_⟩
    · intro b' hb'
      exact alookup_ainsert_ne _ _ fun h => hb' h.symm
    · intro b' br' h
      by_cases hbb : b' = b
      · subst hbb
        rw [alookup_ainsert_self] at h
        cases h
        intro hmem
        rcases List.mem_append.mp hmem with hm | hm
        · exact hpre hm
        · rcases List.mem_cons.mp hm with hm | hm
          · omega
          · exact hpost hm
      · rw [alookup_ainsert_ne _ _ fun h2 => hbb h2.symm] at h
        exact hnb b' br' h hbb
    · exact alookup_ainsert_fresh _ hfresh hx
    · exact ⟨_, alookup_ainsert_self _ _ _, rfl, rfl, rfl, rfl, rfl⟩
    · intro j hj
      exact alookup_ainsert_ne _ _ fun h => hj h.symm

/-- Witness for C7: revising the only main-thread thought of the demo state. -/
theorem c7_revise_frame_witness :
    revise_main_spec c7State 0 1 c7Session c7Thought [] [] "b" (tenth 8) 1 :=
  c7_revise_frame.1 c7State 0 1 c7Session c7Thought [] [] "b" (tenth 8) 1
    (by decide) rfl rfl rfl rfl rfl (by decide) (by decide) (by decide)
    (by decide) (by decide)

/-- The element spliced between `pre` and `post` sits at index `pre.length`. -/
theorem getElem?_append_mid_self (pre post : List Nat) (a : Nat) :
    (pre ++ a :: post)[pre.length]? = some a := by
  induction pre with
  | nil => simp
  | cons x rest ih => simpa using ih

/-- Away from index `pre.length`, the spliced element is irrelevant. -/
theorem getElem?_append_mid_ne (pre post : List Nat) (a b : Nat) (i : Nat)
    (h : i ≠ pre.length) :
    (pre ++ a :: post)[i]? = (pre ++ b :: post)[i]? := by
  induction pre generalizing i with
  | nil =>
    cases i with
    | zero => exact absurd rfl h
    | succ j => simp
  | cons x rest ih =>
    cases i with
    | zero => simp
    | succ j =>
      simp only [List.cons_append, List.getElem?_cons_succ]
      exact ih j fun he => h (by simp [he])

/-- Thread numbering survives any table extension that preserves lookups. -/
theorem numbersFrom_mono (ths ths' : List (Nat × Thought)) (l : List Nat) (off : Nat)
    (h : numbersFrom ths l off)
    (hold : ∀ k t, alookup k ths = some t → alookup k ths' = some t) :
    numbersFrom ths' l off := by
  intro i tid hi
  obtain ⟨t, ht, htn⟩ := h i tid hi
  exact ⟨t, hold _ _ ht, htn⟩

/-- Numbering of a tail thread, shifted by one. -/
theorem numbersFrom_cons_shift (ths : List (Nat × Thought)) (a : Nat) (l : List Nat)
    (off : Nat) (h : numbersFrom ths (a :: l) off) : numbersFrom ths l (off + 1) := by
  intro i tid hi
  obtain ⟨t, ht, htn⟩ := h (i + 1) tid (by simpa using hi)
  exact ⟨t, ht, by omega⟩

/-- Appending one id numbered `off + length + 1` preserves the numbering. -/
theorem numbersFrom_append_one (ths : List (Nat × Thought)) (l : List Nat) (off y : Nat)
    (yt : Thought) (h : numbersFrom ths l off) (hy : alookup y ths = some yt)
    (hnum : yt.number = off + l.length + 1) :
    numbersFrom ths (l ++ [y]) off := by
  induction l generalizing off with
  | nil =>
    intro i tid hi
    cases i with
    | zero =>
      simp only [List.nil_append, List.getElem?_cons_zero, Option.some.injEq] at hi
      exact hi ▸ ⟨yt, hy, by simpa using hnum⟩
    | succ j => simp at hi
  | cons a rest ih =>
    intro i tid hi
    cases i with
    | zero =>
      simp only [List.cons_append, List.getElem?_cons_zero, Option.some.injEq] at hi
      obtain ⟨t, ht, htn⟩ := h 0 a (by simp)
      exact hi ▸ ⟨t, ht, htn⟩
    | succ j =>
      simp only [List.cons_append, List.getElem?_cons_succ] at hi
      obtain ⟨t, ht, htn⟩ :=
        ih (off + 1) (numbersFrom_cons_shift ths a rest off h)
          (by simp only [List.length_cons] at hnum; omega) j tid hi
      exact ⟨t, ht, by omega⟩

/-- Replacing the id at index `pre.length` by a fresh id whose thought
carries the same number preserves the numbering. -/
theorem numbersFrom_replace_mid (ths ths' : List (Nat × Thought)) (pre post : List Nat)
    (x y : Nat) (xt yt : Thought)
    (h : numbersFrom ths (pre ++ x :: post) 0)
    (hold : ∀ k t, alookup k ths = some t → alookup k ths' = some t)
    (hx : alookup x ths = some xt)
    (hy : alookup y ths' = some yt)
    (hnum : yt.number = xt.number) :
    numbersFrom ths' (pre ++ y :: post) 0 := by
  intro i tid hi
  by_cases hip : i = pre.length
  · subst hip
    rw [getElem?_append_mid_self] at hi
    cases hi
    obtain ⟨t, ht, htn⟩ := h pre.length x (getElem?_append_mid_self pre post x)
    rw [hx] at ht
    cases ht
    exact ⟨yt, hy, by omega⟩
  · have hi' : (pre ++ x :: post)[i]? = some tid := by
      rw [getElem?_append_mid_ne pre post x y i hip]
      exact hi
    obtain ⟨t, ht, htn⟩ := h i tid hi'
    exact ⟨t, hold _ _ ht, htn⟩

/-- A successful `replace_first` decomposes the list around the first
occurrence of the replaced element. -/
theorem replace_first_eq_some (x y : Nat) (l l' : List Nat)
    (h : replace_first x y l = some l') :
    ∃ pre post, l = pre ++ x :: post ∧ x ∉ pre ∧ l' = pre ++ y :: post := by
  induction l generalizing l' with
  | nil => simp [replace_first] at h
  | cons a rest ih =>
    by_cases ha : a = x
    · subst ha
      rw [replace_first, if_pos rfl] at h
      cases h
      exact ⟨[], rest, rfl, by simp, rfl⟩
    · rw [replace_first, if_neg ha] at h
      cases hr : replace_first x y rest with
      | none => rw [hr] at h; simp at h
      | some rest' =>
        rw [hr] at h
        simp at h
        obtain ⟨pre, post, hl, hpre, hl'⟩ := ih rest' hr
        refine ⟨a :: pre, post, by rw [hl]; rfl, ?_, by rw [← h, hl']; rfl⟩
        intro hm
        rcases List.mem_cons.mp hm with hm | hm
        · exact ha hm.symm
        · exact hpre hm

/-- Writing a fresh-keyed thought keeps all keys below the bumped counter. -/
theorem thoughtsFresh_ainsert (ths : List (Nat × Thought)) (n : Nat) (t : Thought)
    (h : ∀ p ∈ ths, p.1 < n) : ∀ p ∈ ainsert n t ths, p.1 < n + 1 := by
  intro p hp
  rcases mem_ainsert hp with rfl | hp2
  · exact Nat.lt_succ_self n
  · exact Nat.lt_succ_of_lt (h p hp2)

/-- Storing a fresh thought (and bumping the counter) preserves the
numbering invariant; the session store is untouched. -/
theorem numInv_fresh_thought (s : EngineState) (t : Thought) (h : NumInv s) :
    NumInv { s with thoughts := ainsert s.next_id t s.thoughts,
                    next_id := s.next_id + 1 } := by
  refine ⟨thoughtsFresh_ainsert _ _ _ h.1, ?_⟩
  intro session_id session hl
  exact numbersFrom_mono _ _ _ _ (h.2 session_id session hl)
    fun k t2 hk => alookup_ainsert_fresh _ h.1 hk

/-- `start_session` preserves the numbering invariant. -/
theorem numInv_start (s : EngineState) (p c : String) (cs : List String) (now : Nat)
    (h : NumInv s) : NumInv (start_session s p c cs now).2 := by
  cases hp : strip_empty p with
  | true => simpa only [start_session, create_session, hp, if_true] using h
  | false =>
    cases hc : strip_empty c with
    | true =>
      simpa only [start_session, create_session, hp, hc, Bool.false_eq_true, if_false,
        if_true] using h
    | false =>
      simp only [start_session, create_session, hp, hc, Bool.false_eq_true, if_false]
      refine ⟨fun q hq => Nat.lt_succ_of_lt (h.1 q hq), ?_⟩
      intro session_id session hl
      dsimp only at hl ⊢
      by_cases hss : session_id = s.next_id
      · subst hss
        rw [alookup_ainsert_self] at hl
        cases hl
        intro i tid hi
        simp at hi
      · rw [alookup_ainsert_ne _ _ fun he => hss he.symm] at hl
        exact h.2 _ _ hl

/-- `add_thought` preserves the numbering invariant. -/
theorem numInv_add (s : EngineState) (content : String) (deps : List Nat)
    (confidence : ℚ) (branch_id : Option Nat) (now : Nat) (h : NumInv s) :
    NumInv (add_thought s content deps confidence branch_id now).2 := by
  cases hcur : s.current_session with
  | none => simpa only [add_thought, hcur] using h
  | some session_id =>
  cases hsess : alookup session_id s.sessions with
  | none => simpa only [add_thought, hcur, hsess] using h
  | some session =>
  cases hmem : check_memory_limits s.sessions session_id with
  | false =>
    simpa only [add_thought, hcur, hsess, hmem, Bool.false_eq_true, if_false] using h
  | true =>
  cases hct : strip_empty content with
  | true =>
    cases branch_id with
    | none =>
      simpa only [add_thought, add_thought_insert, hcur, hsess, hmem, if_true, hct] using h
    | some b =>
      cases hbr : alookup b session.branches with
      | none =>
        simpa only [add_thought, hcur, hsess, hmem, if_true, hbr] using h
      | some branch =>
        simpa only [add_thought, add_thought_insert, hcur, hsess, hmem, if_true, hbr,
          hct] using h
  | false =>
  by_cases hcf : (0 : ℚ) ≤ confidence ∧ confidence ≤ 1
  · cases branch_id with
    | none =>
      rw [add_thought_main_eq s content deps confidence now session_id session hcur hsess
        hmem hct hcf]
      refine ⟨thoughtsFresh_ainsert _ _ _ h.1, ?_⟩
      intro sid' sess' hl
      dsimp only at hl ⊢
      by_cases hss : sid' = session_id
      · subst hss
        rw [alookup_ainsert_self] at hl
        cases hl
        dsimp only
        refine numbersFrom_append_one _ _ _ _ _ ?_ (alookup_ainsert_self _ _ _) ?_
        · exact numbersFrom_mono _ _ _ _ (h.2 _ _ hsess)
            fun k t hk => alookup_ainsert_fresh _ h.1 hk
        · dsimp only
          omega
      · rw [alookup_ainsert_ne _ _ fun he => hss he.symm] at hl
        exact numbersFrom_mono _ _ _ _ (h.2 _ _ hl)
          fun k t hk => alookup_ainsert_fresh _ h.1 hk
    | some b =>
      cases hbr : alookup b session.branches with
      | none =>
        simpa only [add_thought, hcur, hsess, hmem, if_true, hbr] using h
      | some branch =>
        rw [add_thought_branch_eq s content deps confidence now session_id b session branch
          hcur hsess hmem hbr hct hcf]
        refine ⟨thoughtsFresh_ainsert _ _ _ h.1, ?_⟩
        intro sid' sess' hl
        dsimp only at hl ⊢
        by_cases hss : sid' = session_id
        · subst hss
          rw [alookup_ainsert_self] at hl
          cases hl
          dsimp only
          exact numbersFrom_mono _ _ _ _ (h.2 _ _ hsess)
            fun k t hk => alookup_ainsert_fresh _ h.1 hk
        · rw [alookup_ainsert_ne _ _ fun he => hss he.symm] at hl
          exact numbersFrom_mono _ _ _ _ (h.2 _ _ hl)
            fun k t hk => alookup_ainsert_fresh _ h.1 hk
  · cases branch_id with
    | none =>
      simpa only [add_thought, add_thought_insert, hcur, hsess, hmem, if_true, hct,
        Bool.false_eq_true, if_false, if_pos hcf] using h
    | some b =>
      cases hbr : alookup b session.branches with
      | none =>
        simpa only [add_thought, hcur, hsess, hmem, if_true, hbr] using h
      | some branch =>
        simpa only [add_thought, add_thought_insert, hcur, hsess, hmem, if_true, hbr, hct,
          Bool.false_eq_true, if_false, if_pos hcf] using h

/-- `revise_thought` preserves the numbering invariant. -/
theorem numInv_revise (s : EngineState) (oid : Nat) (nc : String) (conf : ℚ) (now : Nat)
    (h : NumInv s) : NumInv (revise_thought s oid nc conf now).2 := by
  cases horig : alookup oid s.thoughts with
  | none => simpa only [revise_thought, horig] using h
  | some original =>
  cases hct : strip_empty nc with
  | true => simpa only [revise_thought, horig, hct, if_true] using h
  | false =>
  by_cases hcf : (0 : ℚ) ≤ conf ∧ conf ≤ 1
  · cases hcur : s.current_session with
    | none =>
      simp only [revise_thought, horig, hct, Bool.false_eq_true, if_false,
        if_neg (not_not_intro hcf), hcur]
      exact numInv_fresh_thought s _ h
    | some session_id =>
    cases hsess : alookup session_id s.sessions with
    | none =>
      simp only [revise_thought, horig, hct, Bool.false_eq_true, if_false,
        if_neg (not_not_intro hcf), hcur, hsess]
      exact numInv_fresh_thought s _ h
    | some session =>
    cases hbid : original.branch_id with
    | none =>
      cases hrepl : replace_first oid s.next_id session.main_thread with
      | none =>
        simp only [revise_thought, horig, hct, Bool.false_eq_true, if_false,
          if_neg (not_not_intro hcf), hcur, hsess, hbid, hrepl]
        exact numInv_fresh_thought s _ h
      | some main' =>
        rw [revise_thought_main_eq s oid nc conf now original session_id session main'
          horig hct hcf hcur hsess hbid hrepl]
        obtain ⟨pre, post, hsplit, hpre, hmain'⟩ := replace_first_eq_some _ _ _ _ hrepl
        refine ⟨thoughtsFresh_ainsert _ _ _ h.1, ?_⟩
        intro sid' sess' hl
        dsimp only at hl ⊢
        by_cases hss : sid' = session_id
        · subst hss
          rw [alookup_ainsert_self] at hl
          cases hl
          dsimp only
          rw [hmain']
          refine numbersFrom_replace_mid s.thoughts _ pre post oid s.next_id original _
            ?_ (fun k t hk => alookup_ainsert_fresh _ h.1 hk) horig
            (alookup_ainsert_self _ _ _) rfl
          rw [← hsplit]
          exact h.2 _ _ hsess
        · rw [alookup_ainsert_ne _ _ fun he => hss he.symm] at hl
          exact numbersFrom_mono _ _ _ _ (h.2 _ _ hl)
            fun k t hk => alookup_ainsert_fresh _ h.1 hk
    | some b =>
      cases hbr : alookup b session.branches with
      | none =>
        simp only [revise_thought, horig, hct, Bool.false_eq_true, if_false,
          if_neg (not_not_intro hcf), hcur, hsess, hbid, hbr]
        exact numInv_fresh_thought s _ h
      | some branch =>
        cases hrepl : replace_first oid s.next_id branch.thoughts with
        | none =>
          simp only [revise_thought, horig, hct, Bool.false_eq_true, if_false,
            if_neg (not_not_intro hcf), hcur, hsess, hbid, hbr, hrepl]
          exact numInv_fresh_thought s _ h
        | some thoughts' =>
          rw [revise_thought_branch_eq s oid nc conf now original session_id b session
            branch thoughts' horig hct hcf hcur hsess hbid hbr hrepl]
          refine ⟨thoughtsFresh_ainsert _ _ _ h.1, ?_⟩
          intro sid' sess' hl
          dsimp only at hl ⊢
          by_cases hss : sid' = session_id
          · subst hss
            rw [alookup_ainsert_self] at hl
            cases hl
            dsimp only
            exact numbersFrom_mono _ _ _ _ (h.2 _ _ hsess)
              fun k t hk => alookup_ainsert_fresh _ h.1 hk
          · rw [alookup_ainsert_ne _ _ fun he => hss he.symm] at hl
            exact numbersFrom_mono _ _ _ _ (h.2 _ _ hl)
              fun k t hk => alookup_ainsert_fresh _ h.1 hk
  · simpa only [revise_thought, horig, hct, Bool.false_eq_true, if_false,
      if_pos hcf] using h

/-- `create_branch` preserves the numbering invariant. -/
theorem numInv_create (s : EngineState) (name : String) (from_thought : Nat)
    (purpose : String) (h : NumInv s) :
    NumInv (create_branch s name from_thought purpose).2 := by
  cases hcur : s.current_session with
  | none => simpa only [create_branch, hcur] using h
  | some session_id =>
  cases hsess : alookup session_id s.sessions with
  | none => simpa only [create_branch, hcur, hsess] using h
  | some session =>
  by_cases hmax : session.config.max_branches ≤ session.branches.length
  · simpa only [create_branch, hcur, hsess, if_pos hmax] using h
  · cases hname : strip_empty name with
    | true =>
      simpa only [create_branch, hcur, hsess, if_neg hmax, hname, if_true] using h
    | false =>
      rw [create_branch_eq s name from_thought purpose session_id session hcur hsess
        hmax hname]
      refine ⟨fun q hq => Nat.lt_succ_of_lt (h.1 q hq), ?_⟩
      intro sid' sess' hl
      dsimp only at hl ⊢
      by_cases hss : sid' = session_id
      · subst hss
        rw [alookup_ainsert_self] at hl
        cases hl
        exact h.2 sid' session hsess
      · rw [alookup_ainsert_ne _ _ fun he => hss he.symm] at hl
        exact h.2 _ _ hl

/-- Every non-merge operation preserves the numbering invariant. -/
theorem numInv_stepOp (s : EngineState) (op : Op) (hop : op.isMergeOp = false)
    (h : NumInv s) : NumInv (stepOp s op) := by
  cases op with
  | startSession p c cs now => exact numInv_start s p c cs now h
  | addThought c d cf b now => exact numInv_add s c d cf b now h
  | reviseThought o nc cf now => exact numInv_revise s o nc cf now h
  | createBranch n f p => exact numInv_create s n f p h
  | mergeBranch b t => simp [Op.isMergeOp] at hop

/-- The numbering invariant holds along any merge-free operation sequence. -/
theorem numInv_runOps (ops : List Op) (s : EngineState)
    (hops : ∀ op ∈ ops, op.isMergeOp = false) (h : NumInv s) : NumInv (runOps s ops) := by
  induction ops generalizing s with
  | nil => exact h
  | cons op rest ih =>
    exact ih (stepOp s op) (fun o ho => hops o (List.mem_cons_of_mem _ ho))
      (numInv_stepOp s op (hops op (List.mem_cons_self _ _)) h)

/-- C1 amended: along every sequence of `startSession`, `addThought`,
`reviseThought` and `createBranch` operations (no `mergeBranch`), every
stored session's main thread is numbered exactly `1..N` in insertion
order — in particular a revision keeps its original's number and position.
`mergeBranch` must be excluded: merged thoughts keep their branch-local
numbers. -/
theorem c1_main_thread_numbering (ops : List Op)
    (hops : ∀ op ∈ ops, op.isMergeOp = false) :
    allMainNumbers (runOps initState ops) :=
  (numInv_runOps ops initState hops
    ⟨fun p hp => absurd hp (List.not_mem_nil p),
     fun _ _ hl => by simp [initState, alookup] at hl⟩).2

/-- Witness for the amended C1 on the demo trace. -/
theorem c1_main_thread_numbering_witness :
    allMainNumbers (runOps initState c1DemoTrace) :=
  c1_main_thread_numbering c1DemoTrace (by decide)

/-- C1 counterexample: after the merge the main thread is `[1, 3]` but
thought 3 still carries its branch-local sequence number 1, so the claimed
1..N numbering fails once `mergeBranch` is admitted. -/
theorem c1_merge_breaks_numbering :
    ¬ allMainNumbers (runOps initState c1BadTrace) := by
  intro h
  cases hs : alookup 0 (runOps initState c1BadTrace).sessions with
  | none => exact absurd hs (by decide)
  | some sess =>
    have hm : sess.main_thread = [1, 3] := by
      have h2 : (alookup 0 (runOps initState c1BadTrace).sessions).map
          ThinkingSession.main_thread = some [1, 3] := by decide
      rw [hs] at h2
      exact Option.some.inj h2
    obtain ⟨t, ht, htn⟩ := h 0 sess hs 1 3 (by rw [hm]; rfl)
    have h4 : (alookup 3 (runOps initState c1BadTrace).thoughts).map Thought.number =
        some 1 := by decide
    rw [ht] at h4
    have h5 : t.number = 1 := Option.some.inj h4
    omega

end SeqThink
